import Mathlib

/-!
Verification of the aggregation + cache core of the Google-Sheets budgeting
dashboard (`src/analysis.py`, `src/data_fetch.py`).

Monetary values and clock readings are modelled as rationals (`ℚ`); Python
floats never overflow on the magnitudes involved and all constants in the
claims are exactly representable.  Fallible Python code (a raised exception)
is modelled as `Except String`.
-/

namespace Budget

attribute [local semireducible] Rat.add Rat.mul Rat.sub Rat.inv

instance {ε α : Type} [DecidableEq ε] [DecidableEq α] : DecidableEq (Except ε α)
  | .ok a, .ok b =>
    if h : a = b then .isTrue (by rw [h]) else .isFalse (by simp [h])
  | .error e, .error f =>
    if h : e = f then .isTrue (by rw [h]) else .isFalse (by simp [h])
  | .ok _, .error _ => .isFalse (by simp)
  | .error _, .ok _ => .isFalse (by simp)

/-! ## Python string primitives

`str.replace(pat, '')`, `str.strip()` and `float()` are re-implemented on
`List Char` so that they can be reasoned about.  Only the pattern shapes the
repository actually uses are needed: one- and two-character patterns replaced
by the empty string. -/

/-- Python `s.replace(ab, '')` for a two-character pattern `a,b`: scan left to
right, dropping each non-overlapping occurrence of the pair. -/
def removePair (a b : Char) : List Char → List Char
  | x :: y :: rest =>
    if x = a ∧ y = b then removePair a b rest
    else x :: removePair a b (y :: rest)
  | l => l

/-- Python `s.replace(c, '')` for a single-character pattern: drop every
occurrence. -/
def removeChar (c : Char) (l : List Char) : List Char :=
  l.filter (fun x => x ≠ c)

/-- Python `s.strip()`: drop whitespace from both ends. -/
def stripList (l : List Char) : List Char :=
  ((l.dropWhile Char.isWhitespace).reverse.dropWhile Char.isWhitespace).reverse

/-- Leading `-`/`+` sign of a Python `float()` literal. -/
def signSplit (l : List Char) : ℚ × List Char :=
  match l with
  | [] => (1, [])
  | c :: r =>
    if c = '-' then (-1, r)
    else if c = '+' then (1, r)
    else (1, c :: r)

/-- Split at the first `'.'`, if any. -/
def splitDot : List Char → List Char × Option (List Char)
  | [] => ([], none)
  | c :: r =>
    if c = '.' then ([], some r)
    else
      let p := splitDot r
      (c :: p.1, p.2)

/-- Value of a digit character. -/
def digitVal (c : Char) : Nat := c.toNat - 48

/-- Accumulate a digit string into a natural number. -/
def foldDigits (l : List Char) : Nat :=
  l.foldl (fun n c => 10 * n + digitVal c) 0

/-- Parse a nonempty all-digit string; `none` models a `ValueError`. -/
def natOfDigits? (l : List Char) : Option Nat :=
  if l ≠ [] ∧ l.all Char.isDigit then some (foldDigits l) else none

/-- Python `float()` on the (optionally signed) plain decimal literals this
data pipeline produces.  `none` models the `ValueError` raised on a malformed
literal (so e.g. `float('')` and `float('1.2.3')` fail, while `float('.5')`,
`float('5.')` and `float('-500')` succeed, as in Python). -/
def parseFloat? (s : String) : Option ℚ :=
  let l := stripList s.toList
  let sb := signSplit l
  match splitDot sb.2 with
  | (ip, none) => (natOfDigits? ip).map (fun n => sb.1 * (n : ℚ))
  | (ip, some fp) =>
    if ip = [] ∧ fp = [] then none
    else
      let ipn := if ip = [] then some 0 else natOfDigits? ip
      let fpn := if fp = [] then some 0 else natOfDigits? fp
      match ipn, fpn with
      | some i, some f => some (sb.1 * ((i : ℚ) + (f : ℚ) / (10 : ℚ) ^ fp.length))
      | _, _ => none

/-- `analysis.py`'s `.str.replace('Kč', '')`. -/
def pyRemoveKc (s : String) : String := (removePair 'K' 'č' s.toList).asString

/-- `.str.replace(',', '')`. -/
def pyRemoveComma (s : String) : String := (removeChar ',' s.toList).asString

/-- Python `s.strip()` on a `String`. -/
def pyStrip (s : String) : String := (stripList s.toList).asString

/-! ## Data model

A pandas DataFrame cell is a string or missing (`NaN`); a frame is a column
list plus rows of cells positionally aligned with the columns. -/

inductive Cell where
  | str (s : String)
  | na
deriving DecidableEq, Repr

structure DataFrame where
  cols : List String
  rows : List (List Cell)
deriving DecidableEq, Repr

/-- Cell of row `r` in the column named `k` (missing column or short row reads
as `NaN`, matching pandas reindexing). -/
def getCellAt (cols : List String) (r : List Cell) (k : String) : Cell :=
  match cols.findIdx? (· == k) with
  | some i => r.getD i Cell.na
  | none => Cell.na

/-- pandas `astype(str)`: a missing value renders as the string `'nan'`. -/
def cellToStr (c : Cell) : String :=
  match c with
  | .str s => s
  | .na => "nan"

/-- The monetary-coercion chain of `analysis.py`
(`.astype(str).str.replace('Kč','').str.replace(',','').str.strip().astype(float)`).
`ok none` is `NaN` (pandas `float('nan')`), `error` the `ValueError` that
`astype(float)` raises on a malformed value. -/
def coerceStr (s : String) : Except String (Option ℚ) :=
  let cleaned := pyStrip (pyRemoveComma (pyRemoveKc s))
  if cleaned = "nan" then .ok none
  else
    match parseFloat? cleaned with
    | some q => .ok (some q)
    | none => .error "could not convert string to float"

def coerceCell (c : Cell) : Except String (Option ℚ) :=
  coerceStr (cellToStr c)

/-! ## The criteria filter/aggregator (`analysis.sum_values_by_criteria`)

A working row is the coerced numeric value of the `value_key` column
(`none` = `NaN`) paired with the original cells.  The Python `**criteria`
dict is modelled as the popped `VALUE_CONDITION` entry (an `Option String`)
plus the remaining key/matcher pairs in insertion order; the call sites pass
only lists and strings as matchers.

`df.query(...)` is a large external expression engine; the aggregator is
parameterised over an abstract evaluator `qe` that may fail, exactly as the
code's `try: filtered_df.query(...) except: ...` may. -/

abbrev WRow : Type := Option ℚ × List Cell

abbrev QueryEval : Type := String → String → List WRow → Except String (List WRow)

inductive CritVal where
  | list (vs : List String)
  | str (s : String)
deriving DecidableEq, Repr

/-- Two adjacent characters `a, b` occur in the list. -/
def containsPair (a b : Char) : List Char → Bool
  | x :: y :: rest => (x = a ∧ y = b : Bool) || containsPair a b (y :: rest)
  | _ => false

/-- `any(op in value for op in ['>', '<', '>=', '<=', '==', '!='])`:
equivalent to containing `>`, `<`, `==`, or `!=` (the two-character operators
starting with `>`/`<` are subsumed). -/
def hasCompareOp (s : String) : Bool :=
  s.toList.contains '>' || s.toList.contains '<' ||
  containsPair '=' '=' s.toList || containsPair '!' '=' s.toList

/-- pandas `series == v` on a string column: `NaN` compares unequal. -/
def cellEqStr (c : Cell) (v : String) : Bool :=
  match c with
  | .str s => s == v
  | .na => false

/-- pandas `series.isin(vs)` on a string column: `NaN` is never a member. -/
def cellInList (c : Cell) (vs : List String) : Bool :=
  match c with
  | .str s => vs.contains s
  | .na => false

/-- `value > t` on the coerced column; comparisons with `NaN` are false. -/
def numGT (q : Option ℚ) (t : ℚ) : Bool :=
  match q with
  | some x => decide (t < x)
  | none => false

/-- `value < t` on the coerced column; comparisons with `NaN` are false. -/
def numLT (q : Option ℚ) (t : ℚ) : Bool :=
  match q with
  | some x => decide (x < t)
  | none => false

/-- Coerce the `value_key` column of every row (`astype` raises on the first
malformed value, before any filtering happens). -/
def coerceRows (cols : List String) (valueKey : String) :
    List (List Cell) → Except String (List WRow)
  | [] => .ok []
  | r :: rest =>
    match coerceCell (getCellAt cols r valueKey) with
    | .error e => .error e
    | .ok q =>
      match coerceRows cols valueKey rest with
      | .error e => .error e
      | .ok ws => .ok ((q, r) :: ws)

/-- The manual `>`/`<` fallback of `sum_values_by_criteria` (lines 49–54):
`float(value_condition.replace('>','').strip())` may itself raise, which
propagates. A condition with neither `>` nor `<` falls through unfiltered. -/
def manualCompareFallback (cond : String) (rows : List WRow) :
    Except String (List WRow) :=
  if cond.toList.contains '>' then
    match parseFloat? (pyStrip (removeChar '>' cond.toList).asString) with
    | some t => .ok (rows.filter (fun p => numGT p.1 t))
    | none => .error "could not convert string to float"
  else if cond.toList.contains '<' then
    match parseFloat? (pyStrip (removeChar '<' cond.toList).asString) with
    | some t => .ok (rows.filter (fun p => numLT p.1 t))
    | none => .error "could not convert string to float"
  else .ok rows

/-- `try: filtered_df.query(f"{value_key} {value_condition}") except: manual`. -/
def applyValueCondition (qe : QueryEval) (valueKey cond : String)
    (rows : List WRow) : Except String (List WRow) :=
  match qe valueKey cond rows with
  | .ok r => .ok r
  | .error _ => manualCompareFallback cond rows

/-- One iteration of the remaining-criteria loop (lines 57–69).  A key absent
from the columns is skipped; a list matcher is `isin`; a string matcher
containing a comparison operator goes through `query` with failures ignored
(`except: pass`); any other string is an equality match.  The `value_key`
column holds floats after coercion, so an equality or membership test of it
against strings is elementwise false in pandas. -/
def applyCriterion (qe : QueryEval) (cols : List String) (valueKey : String)
    (rows : List WRow) (key : String) (v : CritVal) : List WRow :=
  if ¬ cols.contains key then rows
  else
    match v with
    | .list vs =>
      rows.filter (fun p =>
        if key == valueKey then false else cellInList (getCellAt cols p.2 key) vs)
    | .str s =>
      if hasCompareOp s then
        match qe key s rows with
        | .ok r => r
        | .error _ => rows
      else
        rows.filter (fun p =>
          if key == valueKey then false else cellEqStr (getCellAt cols p.2 key) s)

/-- `filtered_df[value_key].sum()`: `NaN` entries are skipped, the empty sum
is `0`. -/
def sumNums (rows : List WRow) : ℚ :=
  rows.foldl (fun acc p => acc + p.1.getD 0) 0

/-- The optional `VALUE_CONDITION` stage: absent conditions leave the rows
untouched. -/
def applyVC (qe : QueryEval) (valueKey : String) (vc : Option String)
    (wrows : List WRow) : Except String (List WRow) :=
  match vc with
  | some cond => applyValueCondition qe valueKey cond wrows
  | none => .ok wrows

/-- The tail of `sum_values_by_criteria` after the numeric coercion: the
`VALUE_CONDITION` stage, the remaining-criteria loop, and the final sum. -/
def sumFiltered (qe : QueryEval) (cols : List String) (valueKey : String)
    (vc : Option String) (criteria : List (String × CritVal))
    (wrows : List WRow) : Except String ℚ :=
  match applyVC qe valueKey vc wrows with
  | .error e => .error e
  | .ok rows1 =>
    .ok (sumNums (criteria.foldl
      (fun rs kv => applyCriterion qe cols valueKey rs kv.1 kv.2) rows1))

/-- `analysis.sum_values_by_criteria`. -/
def sum_values_by_criteria (qe : QueryEval) (df : DataFrame) (valueKey : String)
    (valueCondition : Option String) (criteria : List (String × CritVal)) :
    Except String ℚ :=
  if df.rows.isEmpty then .ok 0
  else if ¬ df.cols.contains valueKey then .ok 0
  else
    match coerceRows df.cols valueKey df.rows with
    | .error e => .error e
    | .ok wrows => sumFiltered qe df.cols valueKey valueCondition criteria wrows

/-! ## Derived operations -/

/-- The `CATEGORY=cats` / `MONTH=month` criteria that `compute_cashflow` and
`calculate_expense_ratio` pass to the aggregator. -/
def catMonthCriteria (cats : List String) (month : Option String) :
    List (String × CritVal) :=
  match month with
  | some m => [("CATEGORY", CritVal.list cats), ("MONTH", CritVal.str m)]
  | none => [("CATEGORY", CritVal.list cats)]

/-- `analysis.compute_cashflow`: `total_income + total_expenses` (the expense
sum is signed, normally negative). -/
def compute_cashflow (qe : QueryEval) (df : DataFrame)
    (incomeCategories expenseCategories : List String) (month : Option String) :
    Except String ℚ :=
  match sum_values_by_criteria qe df "VALUE" none (catMonthCriteria incomeCategories month) with
  | .error e => .error e
  | .ok ti =>
    match sum_values_by_criteria qe df "VALUE" none (catMonthCriteria expenseCategories month) with
    | .error e => .error e
    | .ok te => .ok (ti + te)

/-- Result of `calculate_expense_ratio`: `inf` is the `float('inf')` sentinel. -/
inductive RatioResult where
  | inf
  | val (q : ℚ)
deriving DecidableEq, Repr

/-- `analysis.calculate_expense_ratio`: `abs(expenses) / income`, with the
infinite sentinel when the income total is zero. -/
def calculate_expense_ratio (qe : QueryEval) (df : DataFrame)
    (incomeCategories expenseCategories : List String) (month : Option String) :
    Except String RatioResult :=
  match sum_values_by_criteria qe df "VALUE" none (catMonthCriteria incomeCategories month) with
  | .error e => .error e
  | .ok ti =>
    match sum_values_by_criteria qe df "VALUE" none (catMonthCriteria expenseCategories month) with
    | .error e => .error e
    | .ok te =>
      if ti = 0 then .ok .inf else .ok (.val (|te| / ti))

/-! ## `analysis.sum_expenses_by_category` -/

/-- Category name of a filtered row (rows passing the `isin` filter always
hold a string cell). -/
def catName (cols : List String) (p : WRow) : String :=
  match getCellAt cols p.2 "CATEGORY" with
  | .str s => s
  | .na => ""

/-- Insert into a sorted list of strings. -/
def insertSorted (a : String) : List String → List String
  | [] => [a]
  | b :: l => if a ≤ b then a :: b :: l else b :: insertSorted a l

/-- Ascending insertion sort on strings. -/
def sortStrings (l : List String) : List String :=
  l.foldr insertSorted []

/-- Group keys of `df.groupby('CATEGORY')`: the distinct category names,
sorted ascending as pandas does. -/
def groupKeys (cols : List String) (rows : List WRow) : List String :=
  sortStrings ((rows.map (catName cols)).dedup)

/-- Sum of the coerced values of a category's group. -/
def groupSum (cols : List String) (rows : List WRow) (k : String) : ℚ :=
  (rows.filter (fun p => catName cols p = k)).foldl (fun acc p => acc + p.1.getD 0) 0

/-- Line 130–133: keep the expense-category rows with negative value. -/
def expenseFilter (cols : List String) (rows : List WRow)
    (expenseCats : List String) : List WRow :=
  rows.filter (fun p =>
    cellInList (getCellAt cols p.2 "CATEGORY") expenseCats && numLT p.1 0)

/-- Line 136: `groupby('CATEGORY').sum().abs()` of the filtered rows. -/
def expenseSums (cols : List String) (rows : List WRow)
    (expenseCats : List String) : List (String × ℚ) :=
  (groupKeys cols (expenseFilter cols rows expenseCats)).map
    (fun k => (k, |groupSum cols (expenseFilter cols rows expenseCats) k|))

/-- Lines 129–141: negative expense-category rows are grouped and summed to
positive magnitudes, non-positive entries dropped, with the
`{'No Expenses': 0}` default when nothing remains. -/
def expensesCore (cols : List String) (rows : List WRow)
    (expenseCats : List String) : List (String × ℚ) :=
  if ((expenseSums cols rows expenseCats).filter
      (fun kv => decide (0 < kv.2))).isEmpty then [("No Expenses", 0)]
  else (expenseSums cols rows expenseCats).filter (fun kv => decide (0 < kv.2))

/-- Lines 126–127: `df = df[df['MONTH'] == month]` when a month is given. -/
def monthFiltered (cols : List String) (month : Option String)
    (wrows : List WRow) : List WRow :=
  match month with
  | some m => wrows.filter (fun p => cellEqStr (getCellAt cols p.2 "MONTH") m)
  | none => wrows

/-- `analysis.sum_expenses_by_category`.  Unlike the aggregator it has no
empty/missing-column guard: a missing `VALUE`/`MONTH`/`CATEGORY` column is a
`KeyError`. -/
def sum_expenses_by_category (df : DataFrame) (expenseCats : List String)
    (month : Option String) : Except String (List (String × ℚ)) :=
  if ¬ df.cols.contains "VALUE" then .error "KeyError: VALUE"
  else
    match coerceRows df.cols "VALUE" df.rows with
    | .error e => .error e
    | .ok wrows =>
      match month with
      | some m =>
        if ¬ df.cols.contains "MONTH" then .error "KeyError: MONTH"
        else if ¬ df.cols.contains "CATEGORY" then .error "KeyError: CATEGORY"
        else .ok (expensesCore df.cols
          (monthFiltered df.cols (some m) wrows) expenseCats)
      | none =>
        if ¬ df.cols.contains "CATEGORY" then .error "KeyError: CATEGORY"
        else .ok (expensesCore df.cols wrows expenseCats)

/-- Row passes the optional month filter. -/
def monthMatches (cols : List String) (month : Option String)
    (r : List Cell) : Bool :=
  match month with
  | some m => cellEqStr (getCellAt cols r "MONTH") m
  | none => true

/-- The row's coerced `VALUE` is a negative number. -/
def valueNegative (cols : List String) (r : List Cell) : Bool :=
  match coerceCell (getCellAt cols r "VALUE") with
  | .ok (some q) => decide (q < 0)
  | _ => false

/-- A source row that `sum_expenses_by_category` counts: it passes the month
filter, lies in an expense category, and its coerced value is negative. -/
def rowMatchesExpense (cols : List String) (cats : List String)
    (month : Option String) (r : List Cell) : Bool :=
  monthMatches cols month r &&
  cellInList (getCellAt cols r "CATEGORY") cats &&
  valueNegative cols r

/-! ## The time-boxed fetch cache (`data_fetch.py`)

The module-level `_cache` dict and `_cache_stats` counters become an explicit
state record, with the clock (`time.time()`) and the settings reads
(`get_cache_enabled()` / `get_cache_duration()`) passed in as arguments —
the code re-reads them on every call.  The cache dict maps a key to a
`(timestamp, payload)` pair. -/

structure CacheState (α : Type) where
  cache : List (String × ℚ × α)
  hits : Nat
  misses : Nat
  size : Nat
  saved_api_calls : Nat
  last_cleared : ℚ
deriving DecidableEq, Repr

/-- Python dict assignment `d[k] = v`: replace in place, else append. -/
def insertKey {α : Type} (key : String) (v : ℚ × α) :
    List (String × ℚ × α) → List (String × ℚ × α)
  | [] => [(key, v)]
  | (k, w) :: rest =>
    if k == key then (key, v) :: rest else (k, w) :: insertKey key v rest

/-- Python `del d[k]` (dict keys are unique, so a filter is equivalent). -/
def eraseKey {α : Type} (key : String) (l : List (String × ℚ × α)) :
    List (String × ℚ × α) :=
  l.filter (fun p => p.1 ≠ key)

/-- `data_fetch._get_cached_data` (lines 155–186): returns the payload and the
updated statistics; an entry older than the configured duration is deleted on
read. -/
def _get_cached_data {α : Type} (enabled : Bool) (duration now : ℚ)
    (key : String) (st : CacheState α) : Option α × CacheState α :=
  if ¬ enabled then (none, { st with misses := st.misses + 1 })
  else
    match st.cache.lookup key with
    | none => (none, { st with misses := st.misses + 1 })
    | some (ts, data) =>
      if now - ts > duration then
        let c := eraseKey key st.cache
        (none, { st with cache := c, size := c.length, misses := st.misses + 1 })
      else
        (some data,
         { st with hits := st.hits + 1, saved_api_calls := st.saved_api_calls + 1 })

/-- `data_fetch._set_cached_data` (lines 188–201). -/
def _set_cached_data {α : Type} (enabled : Bool) (now : ℚ) (key : String)
    (data : α) (st : CacheState α) : CacheState α :=
  if enabled then
    let c := insertKey key (now, data) st.cache
    { st with cache := c, size := c.length }
  else st

/-- `data_fetch.clear_cache` (lines 133–139): `_cache.clear()`, reset
`last_cleared` and `size`; the other counters are untouched. -/
def clear_cache {α : Type} (now : ℚ) (st : CacheState α) : CacheState α :=
  { st with cache := [], last_cleared := now, size := 0 }

/-- The cache-or-fetch pattern of `get_transactions` / `get_worksheet` /
`cached` (the spec's `get_or_fetch`): serve a valid entry, otherwise invoke
the fetch and store its result.  The third component counts fetch
invocations. -/
def get_or_fetch {α : Type} (enabled : Bool) (duration now : ℚ) (key : String)
    (fetch : Unit → α) (st : CacheState α) : α × CacheState α × Nat :=
  match _get_cached_data enabled duration now key st with
  | (some data, st') => (data, st', 0)
  | (none, st') =>
    let result := fetch ()
    (result, _set_cached_data enabled now key result st', 1)

/-! ## Retry logic and the transaction fetch boundary

`_fetch_from_sheets` loops `for attempt in range(MAX_RETRIES)`, re-raising on
the last attempt and sleeping `2 ** attempt` seconds otherwise.  The remote
call is abstracted as `f : Nat → Except ε α` giving each attempt's outcome;
the model returns the final outcome, the number of attempts made and the
chronological list of backoff delays slept. -/

def MAX_RETRIES : Nat := 3

/-- The retry loop body, structured by the number of remaining attempts
(`fuel = 1` is the `attempt == MAX_RETRIES - 1` case, which re-raises). -/
def fetchAttempts {ε α : Type} (f : Nat → Except ε α) (attempt : Nat) :
    Nat → Except ε α × Nat × List ℚ
  | 0 => (f attempt, 1, [])
  | 1 => (f attempt, 1, [])
  | fuel + 2 =>
    match f attempt with
    | .ok v => (.ok v, 1, [])
    | .error _ =>
      let r := fetchAttempts f (attempt + 1) (fuel + 1)
      (r.1, r.2.1 + 1, ((2 : ℚ) ^ attempt) :: r.2.2)

/-- `data_fetch._fetch_from_sheets` (lines 237–248). -/
def _fetch_from_sheets {ε α : Type} (f : Nat → Except ε α) :
    Except ε α × Nat × List ℚ :=
  fetchAttempts f 0 MAX_RETRIES

/-! ### `get_transactions` row processing (lines 301–340) -/

/-- Python dict assignment on an insertion-ordered association list. -/
def dictInsert (d : List (String × String)) (k v : String) :
    List (String × String) :=
  if (d.lookup k).isSome then d.map (fun p => if p.1 == k then (k, v) else p)
  else d ++ [(k, v)]

/-- `dict(zip(headers, row))`: later duplicate headers overwrite earlier
values in place. -/
def dictZip (headers row : List String) : List (String × String) :=
  (headers.zip row).foldl (fun d p => dictInsert d p.1 p.2) []

/-- `d.setdefault(k, v)`. -/
def setDefault (d : List (String × String)) (k v : String) :
    List (String × String) :=
  if (d.lookup k).isSome then d else d ++ [(k, v)]

/-- The `VALUE` cleaning of `get_transactions` (lines 314–318).  Note the
source strips the literal `'KÄ'` (a mojibake of `'Kč'`), then commas and
spaces; the real `'Kč'` suffix survives here and is stripped later by the
aggregator's own coercion. -/
def cleanTransactionValue (v : String) : String :=
  let value := pyStrip v
  let value := if value = "" then "0" else value
  (removeChar ' ' (removeChar ',' (removePair 'K' 'Ä' value.toList))).asString

/-- Build one transaction dict from a header row and a data row. -/
def processRow (headers row : List String) : List (String × String) :=
  let t := dictZip headers row
  let t := dictInsert t "VALUE"
    (cleanTransactionValue ((t.lookup "VALUE").getD ""))
  let t := setDefault t "TYPE" ""
  let t := setDefault t "CATEGORY" ""
  let t := setDefault t "MONTH" ""
  let t := setDefault t "DESCRIPTION" ""
  t

/-- Lines 301–327: empty payload short-circuits to `[]`; rows whose length
differs from the header row are dropped. -/
def processAllValues (av : List (List String)) : List (List (String × String)) :=
  match av with
  | [] => []
  | headers :: data =>
    (data.filter (fun r => r.length == headers.length)).map (processRow headers)

/-- The fetch path of `data_fetch.get_transactions` after a cache miss: any
exception escaping the retried fetch is caught and degraded to the empty
list (lines 338–340). -/
def get_transactions_result {ε : Type} (f : Nat → Except ε (List (List String))) :
    List (List (String × String)) :=
  match (_fetch_from_sheets f).1 with
  | .error _ => []
  | .ok allValues => processAllValues allValues

/-! ## Currency formatting

A canonical producer of the "digits with thousands separators + space +
currency symbol" display strings (e.g. `formatCzk 1000 = "1,000 Kč"`), used
to state the coercion round-trip property. -/

/-- The decimal digit characters. -/
def digitChar (d : Nat) : Char :=
  ['0', '1', '2', '3', '4', '5', '6', '7', '8', '9'].getD d '0'

/-- Decimal digit string of a natural number, most significant first. -/
def natToDigits (n : Nat) : List Char :=
  if _h : n < 10 then [digitChar n]
  else natToDigits (n / 10) ++ [digitChar (n % 10)]
decreasing_by exact Nat.div_lt_self (by omega) (by omega)

/-- Insert a `','` after every three characters of a reversed digit string. -/
def group3Rev : List Char → List Char
  | a :: b :: c :: d :: rest => a :: b :: c :: ',' :: group3Rev (d :: rest)
  | l => l

/-- Thousands grouping, e.g. `1234567 ↦ "1,234,567"`. -/
def group3 (l : List Char) : List Char :=
  (group3Rev l.reverse).reverse

/-- `formatCzk n` is `n` with thousands separators followed by `" Kč"`. -/
def formatCzk (n : Nat) : String :=
  (group3 (natToDigits n) ++ [' ', 'K', 'č']).asString

/-! ## Concrete fixtures for witnesses and scenarios -/

/-- A query evaluator that always fails, as `df.query` does on a malformed
expression. -/
def failQE : QueryEval := fun _ _ _ => .error "invalid syntax"

/-- The spec's aggregator scenario table:
`[{VALUE:"1,000 Kč", CATEGORY:"Salary", MONTH:"January"}]`. -/
def salaryDf : DataFrame :=
  ⟨["VALUE", "CATEGORY", "MONTH"],
   [[Cell.str "1,000 Kč", Cell.str "Salary", Cell.str "January"]]⟩

/-- The spec's expense scenario table: one row `VALUE:"-500 Kč",
CATEGORY:"Rent"`. -/
def rentDf : DataFrame :=
  ⟨["VALUE", "CATEGORY", "MONTH"],
   [[Cell.str "-500 Kč", Cell.str "Rent", Cell.str "January"]]⟩

/-- A table whose only expense-category row has a positive value. -/
def refundDf : DataFrame :=
  ⟨["VALUE", "CATEGORY", "MONTH"],
   [[Cell.str "100", Cell.str "Rent", Cell.str "January"]]⟩

/-- A fresh cache state holding transaction lists. -/
def emptyCache : CacheState (List String) :=
  ⟨[], 0, 0, 0, 0, 0⟩

/-! # Lemmas -/

theorem lookup_insertKey_self {α : Type} (key : String) (v : ℚ × α) :
    ∀ l : List (String × ℚ × α), (insertKey key v l).lookup key = some v := by
  intro l
  induction l with
  | nil => simp [insertKey, List.lookup]
  | cons p rest ih =>
    obtain ⟨k, w⟩ := p
    by_cases h : k = key
    · simp [insertKey, h, List.lookup]
    · have hk : (key == k) = false := by simp [Ne.symm h]
      simp [insertKey, h, List.lookup, hk, ih]

theorem lookup_eraseKey_self {α : Type} (key : String) :
    ∀ l : List (String × ℚ × α), (eraseKey key l).lookup key = none := by
  intro l
  induction l with
  | nil => rfl
  | cons p rest ih =>
    obtain ⟨k, w⟩ := p
    by_cases h : k = key
    · simpa [eraseKey, List.filter_cons, h] using ih
    · have hk : (key == k) = false := by simp [Ne.symm h]
      simp only [eraseKey, List.filter_cons] at ih ⊢
      rw [if_pos (by simp [h])]
      rw [List.lookup_cons, hk]
      exact ih

/-! # Claims -/

/-- **C9**: `clear_cache` empties the cache map and resets the last-cleared
timestamp and the size counter, but leaves the hit, miss and saved-api-call
counters exactly as they were. -/
theorem clear_cache_preserves_hit_miss_counters {α : Type} (now : ℚ)
    (st : CacheState α) :
    (clear_cache now st).hits = st.hits ∧
    (clear_cache now st).misses = st.misses ∧
    (clear_cache now st).saved_api_calls = st.saved_api_calls ∧
    (clear_cache now st).cache = [] ∧
    (clear_cache now st).size = 0 ∧
    (clear_cache now st).last_cleared = now :=
  ⟨rfl, rfl, rfl, rfl, rfl, rfl⟩

/-- **C2**: a transient upstream failure is retried up to `MAX_RETRIES = 3`
times with exponentially growing delays (`2^0 = 1` then `2^1 = 2` seconds);
when every attempt fails, `get_transactions` returns the empty list instead
of letting the exception cross the fetch boundary, and when a retry succeeds
the fetched value is returned. -/
theorem transactions_fetch_retry_then_empty {ε : Type}
    (f : Nat → Except ε (List (List String))) (e : ε) :
    ((∀ i : Nat, f i = .error e) →
      _fetch_from_sheets f = (.error e, MAX_RETRIES, [1, 2]) ∧
      get_transactions_result f = []) ∧
    (∀ v, f 0 = .error e → f 1 = .ok v →
      _fetch_from_sheets f = (.ok v, 2, [1])) := by
  constructor
  · intro hf
    have h3 : _fetch_from_sheets f = (.error e, MAX_RETRIES, [1, 2]) := by
      show fetchAttempts f 0 MAX_RETRIES = _
      simp only [MAX_RETRIES]
      show fetchAttempts f 0 (1 + 2) = _
      rw [fetchAttempts, hf 0]
      show (let r := fetchAttempts f 1 (0 + 2); (r.1, r.2.1 + 1, ((2:ℚ)^0) :: r.2.2)) = _
      rw [show (0 + 2 : Nat) = 0 + 2 from rfl]
      rw [fetchAttempts, hf 1]
      show (let r := (f 2, 1, ([] : List ℚ));
            ((r.1, r.2.1 + 1, ((2:ℚ)^1) :: r.2.2).1,
             (r.1, r.2.1 + 1, ((2:ℚ)^1) :: r.2.2).2.1 + 1,
             ((2:ℚ)^0) :: (r.1, r.2.1 + 1, ((2:ℚ)^1) :: r.2.2).2.2)) = _
      rw [hf 2]
      norm_num
    refine ⟨h3, ?_⟩
    simp [get_transactions_result, h3]
  · intro v h0 h1
    show fetchAttempts f 0 MAX_RETRIES = _
    simp only [MAX_RETRIES]
    show fetchAttempts f 0 (1 + 2) = _
    rw [fetchAttempts, h0]
    show (let r := fetchAttempts f 1 (0 + 2); (r.1, r.2.1 + 1, ((2:ℚ)^0) :: r.2.2)) = _
    rw [fetchAttempts, h1]
    norm_num

theorem transactions_fetch_retry_then_empty_witness :
    get_transactions_result
      (fun _ => (.error "APIError" : Except String (List (List String)))) = [] :=
  ((transactions_fetch_retry_then_empty
      (fun _ => .error "APIError") "APIError").1 (fun _ => rfl)).2

/-- **C4**: whenever the income-category sum is zero (and both aggregator
calls succeed), `calculate_expense_ratio` returns the infinite sentinel
regardless of the expense total, instead of dividing by zero. -/
theorem expense_ratio_zero_income_infinite (qe : QueryEval) (df : DataFrame)
    (incomeCategories expenseCategories : List String) (month : Option String)
    (te : ℚ)
    (hinc : sum_values_by_criteria qe df "VALUE" none
      (catMonthCriteria incomeCategories month) = .ok 0)
    (hexp : sum_values_by_criteria qe df "VALUE" none
      (catMonthCriteria expenseCategories month) = .ok te) :
    calculate_expense_ratio qe df incomeCategories expenseCategories month =
      .ok .inf := by
  simp [calculate_expense_ratio, hinc, hexp]

theorem expense_ratio_zero_income_infinite_witness :
    calculate_expense_ratio failQE rentDf ["Salary"] ["Rent"] none =
      .ok .inf :=
  expense_ratio_zero_income_infinite failQE rentDf ["Salary"] ["Rent"] none
    (-500) (by decide) (by decide)

/-- **C1**: with caching enabled, a first `get_or_fetch` on an absent key
invokes the fetch (exactly once) and stores the payload under the call time
`t0`; a second call within the configured duration returns the stored payload
with no fetch invocation and an unchanged map, while a call strictly after
the duration elapses deletes the entry on read and invokes the fetch again;
in general the stored entry is served iff `now - t0 ≤ duration`. -/
theorem cache_entry_served_iff_fresh {α : Type} (duration t0 t1 : ℚ)
    (key : String) (fetch : Unit → α) (st st0 : CacheState α)
    (hkey : st.cache.lookup key = none)
    (hst0 : st0 = (get_or_fetch true duration t0 key fetch st).2.1) :
    (get_or_fetch true duration t0 key fetch st).2.2 = 1 ∧
    (get_or_fetch true duration t0 key fetch st).1 = fetch () ∧
    st0.cache.lookup key = some (t0, fetch ()) ∧
    (t1 - t0 ≤ duration →
      get_or_fetch true duration t1 key fetch st0 =
        (fetch (),
         { st0 with hits := st0.hits + 1,
                    saved_api_calls := st0.saved_api_calls + 1 }, 0)) ∧
    (duration < t1 - t0 →
      (get_or_fetch true duration t1 key fetch st0).2.2 = 1 ∧
      ((_get_cached_data true duration t1 key st0).2).cache.lookup key = none) ∧
    (∀ now : ℚ,
      ((_get_cached_data true duration now key st0).1).isSome ↔
        now - t0 ≤ duration) := by
  have hmiss : _get_cached_data true duration t0 key st =
      (none, { st with misses := st.misses + 1 }) := by
    simp [_get_cached_data, hkey]
  have hfirst : get_or_fetch true duration t0 key fetch st =
      (fetch (),
       _set_cached_data true t0 key (fetch ())
         { st with misses := st.misses + 1 }, 1) := by
    simp [get_or_fetch, hmiss]
  have hc0 : st0.cache = insertKey key (t0, fetch ()) st.cache := by
    rw [hst0, hfirst]
    simp [_set_cached_data]
  have hlook : st0.cache.lookup key = some (t0, fetch ()) := by
    rw [hc0]; exact lookup_insertKey_self key _ st.cache
  refine ⟨by rw [hfirst], by rw [hfirst], hlook, ?_, ?_, ?_⟩
  · intro hfresh
    have : _get_cached_data true duration t1 key st0 =
        (some (fetch ()),
         { st0 with hits := st0.hits + 1,
                    saved_api_calls := st0.saved_api_calls + 1 }) := by
      simp [_get_cached_data, hlook]
      linarith
    simp [get_or_fetch, this]
  · intro hstale
    have hdel : _get_cached_data true duration t1 key st0 =
        (none,
         { st0 with cache := eraseKey key st0.cache,
                    size := (eraseKey key st0.cache).length,
                    misses := st0.misses + 1 }) := by
      simp [_get_cached_data, hlook]
      linarith
    refine ⟨?_, ?_⟩
    · simp [get_or_fetch, hdel]
    · rw [hdel]
      exact lookup_eraseKey_self key st0.cache
  · intro now
    by_cases hnow : now - t0 ≤ duration
    · have : _get_cached_data true duration now key st0 =
          (some (fetch ()),
           { st0 with hits := st0.hits + 1,
                      saved_api_calls := st0.saved_api_calls + 1 }) := by
        simp [_get_cached_data, hlook]
        linarith
      simp [this, hnow]
    · have : _get_cached_data true duration now key st0 =
          (none,
           { st0 with cache := eraseKey key st0.cache,
                      size := (eraseKey key st0.cache).length,
                      misses := st0.misses + 1 }) := by
        simp [_get_cached_data, hlook]
        linarith [not_le.mp hnow]
      simp [this, hnow]

theorem cache_entry_served_iff_fresh_witness :
    ((get_or_fetch true 300 100 "Budget tracker 2025:transactions:"
        (fun _ => ["row"])
        ((get_or_fetch true 300 0 "Budget tracker 2025:transactions:"
          (fun _ => ["row"]) emptyCache).2.1)).2.2 = 0) ∧
    ((get_or_fetch true 300 400 "Budget tracker 2025:transactions:"
        (fun _ => ["row"])
        ((get_or_fetch true 300 0 "Budget tracker 2025:transactions:"
          (fun _ => ["row"]) emptyCache).2.1)).2.2 = 1) := by
  constructor
  · have h := cache_entry_served_iff_fresh 300 0 100
      "Budget tracker 2025:transactions:" (fun _ => ["row"]) emptyCache _
      rfl rfl
    have h2 := h.2.2.2.1 (by norm_num)
    rw [h2]
  · have h := cache_entry_served_iff_fresh 300 0 400
      "Budget tracker 2025:transactions:" (fun _ => ["row"]) emptyCache _
      rfl rfl
    exact (h.2.2.2.2.1 (by norm_num)).1

theorem applyCriterion_skip (qe : QueryEval) (cols : List String)
    (valueKey : String) (rows : List WRow) (key : String) (v : CritVal)
    (h : cols.contains key = false) :
    applyCriterion qe cols valueKey rows key v = rows := by
  unfold applyCriterion
  exact if_pos (by simpa using h)

theorem foldl_applyCriterion_skip (qe : QueryEval) (cols : List String)
    (valueKey : String) (rows : List WRow)
    (crit₁ crit₂ : List (String × CritVal)) (key : String) (v : CritVal)
    (h : cols.contains key = false) :
    (crit₁ ++ (key, v) :: crit₂).foldl
      (fun rs kv => applyCriterion qe cols valueKey rs kv.1 kv.2) rows =
    (crit₁ ++ crit₂).foldl
      (fun rs kv => applyCriterion qe cols valueKey rs kv.1 kv.2) rows := by
  rw [List.foldl_append, List.foldl_append, List.foldl_cons,
    applyCriterion_skip qe cols valueKey _ key v h]

theorem sum_values_congr_criteria (qe : QueryEval) (df : DataFrame)
    (valueKey : String) (vc : Option String)
    (c1 c2 : List (String × CritVal))
    (hc : ∀ rows : List WRow,
      c1.foldl (fun rs kv => applyCriterion qe df.cols valueKey rs kv.1 kv.2) rows =
      c2.foldl (fun rs kv => applyCriterion qe df.cols valueKey rs kv.1 kv.2) rows) :
    sum_values_by_criteria qe df valueKey vc c1 =
    sum_values_by_criteria qe df valueKey vc c2 := by
  unfold sum_values_by_criteria
  by_cases hr : df.rows.isEmpty
  · rw [if_pos hr, if_pos hr]
  · rw [if_neg hr, if_neg hr]
    by_cases hv : df.cols.contains valueKey
    · rw [if_neg (by simpa using hv), if_neg (by simpa using hv)]
      cases hco : coerceRows df.cols valueKey df.rows with
      | error e => rfl
      | ok wrows =>
        show sumFiltered qe df.cols valueKey vc c1 wrows =
          sumFiltered qe df.cols valueKey vc c2 wrows
        unfold sumFiltered
        cases hvc : applyVC qe valueKey vc wrows with
        | error e => rfl
        | ok rows1 => exact congrArg (fun r => Except.ok (sumNums r)) (hc rows1)
    · rw [if_pos hv, if_pos hv]

/-- **C5**: the aggregator returns `0` (without raising) on an empty table
and on a table missing the value column, and a criterion whose key names a
column absent from the table is silently skipped. -/
theorem aggregator_degenerate_inputs (qe : QueryEval) (df : DataFrame)
    (valueKey : String) (vc : Option String)
    (crit₁ crit₂ : List (String × CritVal)) (key : String) (v : CritVal) :
    (df.rows = [] →
      sum_values_by_criteria qe df valueKey vc (crit₁ ++ crit₂) = .ok 0) ∧
    (df.cols.contains valueKey = false →
      sum_values_by_criteria qe df valueKey vc (crit₁ ++ crit₂) = .ok 0) ∧
    (df.cols.contains key = false →
      sum_values_by_criteria qe df valueKey vc (crit₁ ++ (key, v) :: crit₂) =
        sum_values_by_criteria qe df valueKey vc (crit₁ ++ crit₂)) := by
  refine ⟨?_, ?_, ?_⟩
  · intro h
    unfold sum_values_by_criteria
    rw [if_pos (by simp [h])]
  · intro h
    unfold sum_values_by_criteria
    by_cases hr : df.rows.isEmpty
    · rw [if_pos hr]
    · rw [if_neg hr, if_pos (by simpa using h)]
  · intro h
    exact sum_values_congr_criteria qe df valueKey vc _ _
      (fun rows1 => foldl_applyCriterion_skip qe df.cols valueKey rows1
        crit₁ crit₂ key v h)

theorem aggregator_degenerate_inputs_witness :
    sum_values_by_criteria failQE ⟨["VALUE", "CATEGORY", "MONTH"], []⟩
      "VALUE" none ([("CATEGORY", CritVal.list ["Rent"])] ++ []) = .ok 0 :=
  (aggregator_degenerate_inputs failQE ⟨["VALUE", "CATEGORY", "MONTH"], []⟩
    "VALUE" none [("CATEGORY", CritVal.list ["Rent"])] [] "ACCOUNT"
    (CritVal.str "x")).1 rfl

/-- **C6**: whenever the query evaluator fails on a `VALUE_CONDITION`
expression, the aggregator falls back to the manual comparison path — the
query error itself is never propagated: the outcome is exactly
`manualCompareFallback`, which filters by `>` (or `<`) against the threshold
extracted from the expression whenever that threshold parses. -/
theorem value_condition_fallback_on_query_failure (qe : QueryEval)
    (valueKey cond : String) (rows : List WRow) (e : String)
    (hq : qe valueKey cond rows = .error e) :
    applyValueCondition qe valueKey cond rows =
      manualCompareFallback cond rows ∧
    (∀ t : ℚ, cond.toList.contains '>' = true →
      parseFloat? (pyStrip (removeChar '>' cond.toList).asString) = some t →
      applyValueCondition qe valueKey cond rows =
        .ok (rows.filter (fun p => numGT p.1 t))) ∧
    (∀ t : ℚ, cond.toList.contains '>' = false →
      cond.toList.contains '<' = true →
      parseFloat? (pyStrip (removeChar '<' cond.toList).asString) = some t →
      applyValueCondition qe valueKey cond rows =
        .ok (rows.filter (fun p => numLT p.1 t))) := by
  have hfb : applyValueCondition qe valueKey cond rows =
      manualCompareFallback cond rows := by
    simp [applyValueCondition, hq]
  refine ⟨hfb, ?_, ?_⟩
  · intro t hgt hparse
    rw [hfb]
    unfold manualCompareFallback
    rw [if_pos hgt, hparse]
  · intro t hgt hlt hparse
    rw [hfb]
    unfold manualCompareFallback
    rw [if_neg (by simpa using hgt), if_pos hlt, hparse]

theorem value_condition_fallback_on_query_failure_witness :
    applyValueCondition failQE "VALUE" "> 0"
      [(some 1, []), (some (-1), [])] = .ok [(some 1, [])] := by
  have h := (value_condition_fallback_on_query_failure failQE "VALUE" "> 0"
    [(some 1, []), (some (-1), [])] "invalid syntax" rfl).2.1 0
    (by decide) (by decide)
  rw [h]
  decide

theorem coerceRows_mem (cols : List String) (valueKey : String) :
    ∀ (rows : List (List Cell)) (wrows : List WRow),
      coerceRows cols valueKey rows = .ok wrows →
      ∀ p ∈ wrows, p.2 ∈ rows ∧
        coerceCell (getCellAt cols p.2 valueKey) = .ok p.1 := by
  intro rows
  induction rows with
  | nil =>
    intro wrows h p hp
    unfold coerceRows at h
    cases h
    simp at hp
  | cons r rest ih =>
    intro wrows h p hp
    unfold coerceRows at h
    cases hc : coerceCell (getCellAt cols r valueKey) with
    | error e => rw [hc] at h; cases h
    | ok q =>
      rw [hc] at h
      cases hrest : coerceRows cols valueKey rest with
      | error e => rw [hrest] at h; cases h
      | ok ws =>
        rw [hrest] at h
        cases h
        rcases List.mem_cons.mp hp with hpq | hpw
        · subst hpq
          exact ⟨List.mem_cons_self _ _, hc⟩
        · obtain ⟨h1, h2⟩ := ih ws hrest p hpw
          exact ⟨List.mem_cons_of_mem _ h1, h2⟩

theorem expensesCore_cases (cols : List String) (rows : List WRow)
    (cats : List String) :
    expensesCore cols rows cats = [("No Expenses", 0)] ∨
    ∀ p ∈ expensesCore cols rows cats, 0 < p.2 := by
  unfold expensesCore
  split
  · left; rfl
  · right
    intro p hp
    have := (List.mem_filter.mp hp).2
    simpa using this

theorem expensesCore_nonneg (cols : List String) (rows : List WRow)
    (cats : List String) :
    ∀ p ∈ expensesCore cols rows cats, 0 ≤ p.2 := by
  intro p hp
  rcases expensesCore_cases cols rows cats with h | h
  · rw [h] at hp
    simp only [List.mem_singleton] at hp
    rw [hp]
  · exact le_of_lt (h p hp)

theorem expensesCore_of_no_match (cols : List String) (rows : List WRow)
    (cats : List String)
    (h : ∀ p ∈ rows,
      (cellInList (getCellAt cols p.2 "CATEGORY") cats && numLT p.1 0) = false) :
    expensesCore cols rows cats = [("No Expenses", 0)] := by
  have hfr : expenseFilter cols rows cats = [] := by
    unfold expenseFilter
    rw [List.filter_eq_nil_iff]
    intro p hp
    simp [h p hp]
  unfold expensesCore expenseSums
  rw [hfr]
  simp [groupKeys, sortStrings]

theorem sum_expenses_ok_elim (df : DataFrame) (cats : List String)
    (month : Option String) (res : List (String × ℚ))
    (h : sum_expenses_by_category df cats month = .ok res) :
    ∃ wrows, coerceRows df.cols "VALUE" df.rows = .ok wrows ∧
      res = expensesCore df.cols (monthFiltered df.cols month wrows) cats := by
  unfold sum_expenses_by_category at h
  split at h
  · cases h
  · cases hco : coerceRows df.cols "VALUE" df.rows with
    | error e => rw [hco] at h; cases h
    | ok wrows =>
      rw [hco] at h
      refine ⟨wrows, rfl, ?_⟩
      cases month with
      | some m =>
        have h' : (if ¬ df.cols.contains "MONTH" = true then
              (Except.error "KeyError: MONTH" :
                Except String (List (String × ℚ)))
            else if ¬ df.cols.contains "CATEGORY" = true then
              Except.error "KeyError: CATEGORY"
            else Except.ok (expensesCore df.cols
              (monthFiltered df.cols (some m) wrows) cats)) =
            Except.ok res := h
        by_cases h1 : (¬ df.cols.contains "MONTH" = true)
        · rw [if_pos h1] at h'; cases h'
        · rw [if_neg h1] at h'
          by_cases h2 : (¬ df.cols.contains "CATEGORY" = true)
          · rw [if_pos h2] at h'; cases h'
          · rw [if_neg h2] at h'
            exact (Except.ok.inj h').symm
      | none =>
        have h' : (if ¬ df.cols.contains "CATEGORY" = true then
              (Except.error "KeyError: CATEGORY" :
                Except String (List (String × ℚ)))
            else Except.ok (expensesCore df.cols wrows cats)) =
            Except.ok res := h
        by_cases h2 : (¬ df.cols.contains "CATEGORY" = true)
        · rw [if_pos h2] at h'; cases h'
        · rw [if_neg h2] at h'
          exact (Except.ok.inj h').symm

/-- **C7**: every value in the mapping returned by `sum_expenses_by_category`
is non-negative — only negative-valued rows in the given expense categories
are counted and each category sum is sign-flipped to a positive magnitude —
and on the spec's scenario table (`VALUE:"-500 Kč"`, `CATEGORY:"Rent"`) the
result is `{"Rent": 500.0}`. -/
theorem expenses_by_category_values_nonneg (df : DataFrame)
    (cats : List String) (month : Option String) (res : List (String × ℚ))
    (h : sum_expenses_by_category df cats month = .ok res) :
    (∀ p ∈ res, 0 ≤ p.2) ∧
    sum_expenses_by_category rentDf ["Rent"] none = .ok [("Rent", 500)] := by
  constructor
  · intro p hp
    obtain ⟨wrows, hco, hres⟩ := sum_expenses_ok_elim df cats month res h
    rw [hres] at hp
    exact expensesCore_nonneg _ _ _ p hp
  · decide

theorem expenses_by_category_values_nonneg_witness :
    0 ≤ (("Rent", (500 : ℚ)) : String × ℚ).2 :=
  (expenses_by_category_values_nonneg rentDf ["Rent"] none [("Rent", 500)]
    (by decide)).1 ("Rent", 500) (by decide)

/-- **C10**: when no row of the table both lies in an expense category and
has a negative coerced value (after the optional month filter),
`sum_expenses_by_category` returns the singleton `{'No Expenses': 0}` rather
than an empty mapping; and any other result contains only strictly positive
values (zero-sum categories are filtered out). -/
theorem expenses_default_when_no_negative_rows (df : DataFrame)
    (cats : List String) (month : Option String) (res : List (String × ℚ))
    (h : sum_expenses_by_category df cats month = .ok res) :
    ((∀ r ∈ df.rows, rowMatchesExpense df.cols cats month r = false) →
      res = [("No Expenses", 0)]) ∧
    (res ≠ [("No Expenses", 0)] → ∀ p ∈ res, 0 < p.2) := by
  obtain ⟨wrows, hco, hres⟩ := sum_expenses_ok_elim df cats month res h
  constructor
  · intro hno
    rw [hres]
    apply expensesCore_of_no_match
    intro p hp
    have hpf : p ∈ wrows ∧ monthMatches df.cols month p.2 = true := by
      cases month with
      | some m =>
        have hm := List.mem_filter.mp
          (show p ∈ List.filter
            (fun p => cellEqStr (getCellAt df.cols p.2 "MONTH") m) wrows
           from hp)
        exact ⟨hm.1, hm.2⟩
      | none => exact ⟨hp, rfl⟩
    obtain ⟨hpr, hcc⟩ :=
      coerceRows_mem df.cols "VALUE" df.rows wrows hco p hpf.1
    have hrm := hno p.2 hpr
    unfold rowMatchesExpense at hrm
    have hvn : valueNegative df.cols p.2 = numLT p.1 0 := by
      unfold valueNegative
      rw [hcc]
      cases p.1 <;> rfl
    rw [hvn, hpf.2] at hrm
    simpa using hrm
  · intro hne
    rcases expensesCore_cases df.cols (monthFiltered df.cols month wrows) cats
      with hc | hc
    · exact absurd (hres.trans hc) hne
    · intro p hp
      rw [hres] at hp
      exact hc p hp

/-- **C8 counterexample**: on a table whose only expense-category row has a
positive value (`VALUE:"100"`, `CATEGORY:"Rent"`, no income rows),
`compute_cashflow` returns `+100`, not the `income − |expense|` value `−100`
that the claim's "income total minus the expense-total magnitude" reading
demands. -/
theorem cashflow_counterexample :
    sum_values_by_criteria failQE refundDf "VALUE" none
      (catMonthCriteria [] none) = .ok 0 ∧
    sum_values_by_criteria failQE refundDf "VALUE" none
      (catMonthCriteria ["Rent"] none) = .ok 100 ∧
    compute_cashflow failQE refundDf [] ["Rent"] none = .ok 100 ∧
    (100 : ℚ) ≠ 0 - |(100 : ℚ)| := by
  refine ⟨by decide, by decide, by decide, by norm_num⟩

/-- **C8 (amended)**: `compute_cashflow` returns the income-category sum plus
the signed expense-category sum; since expense rows are normally recorded
negative, this equals the income total minus the spent magnitude whenever the
expense-category sum is non-positive. -/
theorem cashflow_is_income_plus_signed_expense_sum (qe : QueryEval)
    (df : DataFrame) (incomeCategories expenseCategories : List String)
    (month : Option String) (ti te : ℚ)
    (hi : sum_values_by_criteria qe df "VALUE" none
      (catMonthCriteria incomeCategories month) = .ok ti)
    (he : sum_values_by_criteria qe df "VALUE" none
      (catMonthCriteria expenseCategories month) = .ok te) :
    compute_cashflow qe df incomeCategories expenseCategories month =
      .ok (ti + te) ∧
    (te ≤ 0 → ti + te = ti - |te|) := by
  constructor
  · simp [compute_cashflow, hi, he]
  · intro h
    rw [abs_of_nonpos h]
    ring

theorem cashflow_is_income_plus_signed_expense_sum_witness :
    compute_cashflow failQE rentDf ["Salary"] ["Rent"] none =
      .ok (0 + (-500 : ℚ)) ∧ (0 : ℚ) + (-500) = 0 - |(-500 : ℚ)| := by
  have h := cashflow_is_income_plus_signed_expense_sum failQE rentDf
    ["Salary"] ["Rent"] none 0 (-500) (by decide) (by decide)
  exact ⟨h.1, h.2 (by norm_num)⟩

theorem expenses_default_when_no_negative_rows_witness :
    ([("No Expenses", (0 : ℚ))] : List (String × ℚ)) = [("No Expenses", 0)] :=
  (expenses_default_when_no_negative_rows refundDf ["Rent"] none
    [("No Expenses", 0)] (by decide)).1 (by decide)

/-! ## Lemmas for the currency round-trip (C3) -/

theorem digitChar_props (d : Nat) (h : d < 10) :
    (digitChar d).isDigit = true ∧ digitChar d ≠ 'K' ∧ digitChar d ≠ ',' ∧
    digitChar d ≠ '.' ∧ digitChar d ≠ '-' ∧ digitChar d ≠ '+' ∧
    (digitChar d).isWhitespace = false ∧ digitChar d ≠ 'n' := by
  interval_cases d <;> decide

theorem digitVal_digitChar (d : Nat) (h : d < 10) :
    digitVal (digitChar d) = d := by
  interval_cases d <;> decide

theorem natToDigits_ne_nil (n : Nat) : natToDigits n ≠ [] := by
  rw [natToDigits]
  split
  · simp
  · simp

theorem mem_natToDigits (n : Nat) :
    ∀ c ∈ natToDigits n, ∃ d, d < 10 ∧ c = digitChar d := by
  induction n using Nat.strong_induction_on with
  | _ n ih =>
    rw [natToDigits]
    split
    · next h =>
      intro c hc
      simp only [List.mem_singleton] at hc
      exact ⟨n, h, hc⟩
    · next h =>
      intro c hc
      rcases List.mem_append.mp hc with hc | hc
      · exact ih (n / 10) (Nat.div_lt_self (by omega) (by omega)) c hc
      · simp only [List.mem_singleton] at hc
        exact ⟨n % 10, Nat.mod_lt _ (by omega), hc⟩

theorem foldDigits_append (l : List Char) (c : Char) :
    foldDigits (l ++ [c]) = 10 * foldDigits l + digitVal c := by
  unfold foldDigits
  rw [List.foldl_append]
  rfl

theorem foldDigits_natToDigits (n : Nat) :
    foldDigits (natToDigits n) = n := by
  induction n using Nat.strong_induction_on with
  | _ n ih =>
    rw [natToDigits]
    split
    · next h =>
      show foldDigits [digitChar n] = n
      unfold foldDigits
      simp [digitVal_digitChar n h]
    · next h =>
      rw [foldDigits_append,
        ih (n / 10) (Nat.div_lt_self (by omega) (by omega)),
        digitVal_digitChar (n % 10) (Nat.mod_lt _ (by omega))]
      omega

theorem group3Rev_filter (p : Char → Bool) (hp : p ',' = false) :
    ∀ l : List Char, (group3Rev l).filter p = l.filter p
  | [] => rfl
  | [a] => rfl
  | [a, b] => rfl
  | [a, b, c] => rfl
  | a :: b :: c :: d :: rest => by
    have ih := group3Rev_filter p hp (d :: rest)
    show List.filter p (a :: b :: c :: ',' :: group3Rev (d :: rest)) =
      List.filter p (a :: b :: c :: d :: rest)
    simp [List.filter_cons, hp, ih]

theorem mem_group3Rev :
    ∀ l : List Char, ∀ x : Char, x ∈ group3Rev l → x ∈ l ∨ x = ','
  | [], x, h => .inl h
  | [a], x, h => .inl h
  | [a, b], x, h => .inl h
  | [a, b, c], x, h => .inl h
  | a :: b :: c :: d :: rest, x, h => by
    have h' : x ∈ a :: b :: c :: ',' :: group3Rev (d :: rest) := h
    simp only [List.mem_cons] at h'
    rcases h' with rfl | rfl | rfl | rfl | h'
    · left; simp
    · left; simp
    · left; simp
    · right; rfl
    · rcases mem_group3Rev (d :: rest) x h' with h2 | h2
      · left
        simp only [List.mem_cons] at h2 ⊢
        tauto
      · right; exact h2

theorem group3_filter (p : Char → Bool) (hp : p ',' = false) (l : List Char) :
    (group3 l).filter p = l.filter p := by
  unfold group3
  rw [List.filter_reverse, group3Rev_filter p hp, List.filter_reverse,
    List.reverse_reverse]

theorem mem_group3 (l : List Char) (x : Char) (h : x ∈ group3 l) :
    x ∈ l ∨ x = ',' := by
  unfold group3 at h
  rw [List.mem_reverse] at h
  rcases mem_group3Rev _ x h with h2 | h2
  · left; exact List.mem_reverse.mp h2
  · right; exact h2

theorem removePair_append_not_mem (a b : Char) :
    ∀ l m : List Char, (∀ x ∈ l, x ≠ a) →
      removePair a b (l ++ m) = l ++ removePair a b m
  | [], _, _ => rfl
  | c :: l, m, h => by
    have hca : c ≠ a := h c (List.mem_cons_self c l)
    have h' : ∀ x ∈ l, x ≠ a := fun x hx => h x (List.mem_cons_of_mem c hx)
    rw [List.cons_append]
    cases hlm : l ++ m with
    | nil =>
      obtain ⟨hl, hm⟩ := List.append_eq_nil.mp hlm
      subst hl; subst hm
      rfl
    | cons y rest =>
      show (if c = a ∧ y = b then removePair a b rest
            else c :: removePair a b (y :: rest)) =
        c :: (l ++ removePair a b m)
      rw [if_neg (by simp [hca])]
      rw [← hlm, removePair_append_not_mem a b l m h']

theorem dropWhile_eq_self_of (p : Char → Bool) :
    ∀ l : List Char, (∀ x ∈ l, p x = false) → l.dropWhile p = l
  | [], _ => rfl
  | c :: t, h => by
    rw [List.dropWhile_cons]
    simp [h c (List.mem_cons_self c t)]

theorem stripList_eq_self (l : List Char)
    (h : ∀ x ∈ l, x.isWhitespace = false) : stripList l = l := by
  unfold stripList
  rw [dropWhile_eq_self_of _ l h,
    dropWhile_eq_self_of _ l.reverse
      (fun x hx => h x (List.mem_reverse.mp hx)),
    List.reverse_reverse]

theorem stripList_append_space (l : List Char) (hne : l ≠ [])
    (h : ∀ x ∈ l, x.isWhitespace = false) : stripList (l ++ [' ']) = l := by
  obtain ⟨c, t, rfl⟩ := List.exists_cons_of_ne_nil hne
  unfold stripList
  rw [List.cons_append, List.dropWhile_cons,
    if_neg (by simp [h c (List.mem_cons_self c t)])]
  rw [show (c :: (t ++ [' '])).reverse = ' ' :: (t.reverse ++ [c]) by simp]
  rw [List.dropWhile_cons, if_pos (by decide)]
  have hmem : ∀ x ∈ t.reverse ++ [c], x.isWhitespace = false := by
    intro x hx
    rcases List.mem_append.mp hx with hx | hx
    · exact h x (List.mem_cons_of_mem c (List.mem_reverse.mp hx))
    · simp only [List.mem_singleton] at hx
      subst hx
      exact h x (List.mem_cons_self x t)
  rw [dropWhile_eq_self_of _ _ hmem]
  simp

theorem splitDot_no_dot :
    ∀ l : List Char, (∀ x ∈ l, x ≠ '.') → splitDot l = (l, none)
  | [], _ => rfl
  | c :: r, h => by
    have ih := splitDot_no_dot r (fun x hx => h x (List.mem_cons_of_mem c hx))
    unfold splitDot
    rw [if_neg (h c (List.mem_cons_self c r)), ih]

theorem signSplit_cons_of_no_sign (c : Char) (t : List Char)
    (h1 : c ≠ '-') (h2 : c ≠ '+') : signSplit (c :: t) = (1, c :: t) := by
  show (if c = '-' then ((-1 : ℚ), t)
        else if c = '+' then ((1 : ℚ), t) else (1, c :: t)) = (1, c :: t)
  rw [if_neg h1, if_neg h2]

theorem natOfDigits_of_digits (l : List Char) (hne : l ≠ [])
    (h : ∀ x ∈ l, x.isDigit = true) :
    natOfDigits? l = some (foldDigits l) := by
  unfold natOfDigits?
  rw [if_pos ⟨hne, List.all_eq_true.mpr h⟩]

theorem parseFloat_digits (n : Nat) :
    parseFloat? (natToDigits n).asString = some (n : ℚ) := by
  have hd : ∀ c ∈ natToDigits n, c.isDigit = true := by
    intro c hc
    obtain ⟨d, hdlt, rfl⟩ := mem_natToDigits n c hc
    exact (digitChar_props d hdlt).1
  have hws : ∀ c ∈ natToDigits n, c.isWhitespace = false := by
    intro c hc
    obtain ⟨d, hdlt, rfl⟩ := mem_natToDigits n c hc
    exact (digitChar_props d hdlt).2.2.2.2.2.2.1
  have hdot : ∀ c ∈ natToDigits n, c ≠ '.' := by
    intro c hc
    obtain ⟨d, hdlt, rfl⟩ := mem_natToDigits n c hc
    exact (digitChar_props d hdlt).2.2.2.1
  obtain ⟨c, t, hct⟩ := List.exists_cons_of_ne_nil (natToDigits_ne_nil n)
  have hc1 : c ≠ '-' := by
    obtain ⟨d, hdlt, rfl⟩ :=
      mem_natToDigits n c (by rw [hct]; exact List.mem_cons_self c t)
    exact (digitChar_props d hdlt).2.2.2.2.1
  have hc2 : c ≠ '+' := by
    obtain ⟨d, hdlt, rfl⟩ :=
      mem_natToDigits n c (by rw [hct]; exact List.mem_cons_self c t)
    exact (digitChar_props d hdlt).2.2.2.2.2.1
  have hsign : signSplit (natToDigits n) = (1, natToDigits n) := by
    rw [hct]
    exact signSplit_cons_of_no_sign c t hc1 hc2
  simp only [parseFloat?,
    show ((natToDigits n).asString).toList = natToDigits n from rfl,
    stripList_eq_self _ hws, hsign, splitDot_no_dot _ hdot,
    natOfDigits_of_digits _ (natToDigits_ne_nil n) hd,
    foldDigits_natToDigits, Option.map_some', one_mul]
  simp

theorem coerce_formatCzk (n : Nat) :
    coerceStr (formatCzk n) = .ok (some (n : ℚ)) := by
  have hK : ∀ x ∈ group3 (natToDigits n) ++ [' '], x ≠ 'K' := by
    intro x hx
    rcases List.mem_append.mp hx with hx | hx
    · rcases mem_group3 _ x hx with hx2 | hx2
      · obtain ⟨d, hdlt, rfl⟩ := mem_natToDigits n x hx2
        exact (digitChar_props d hdlt).2.1
      · subst hx2; decide
    · simp only [List.mem_singleton] at hx
      subst hx; decide
  have h1 : pyRemoveKc (formatCzk n) =
      (group3 (natToDigits n) ++ [' ']).asString := by
    unfold pyRemoveKc formatCzk
    rw [show ((group3 (natToDigits n) ++ [' ', 'K', 'č']).asString).toList =
        group3 (natToDigits n) ++ [' ', 'K', 'č'] from rfl]
    rw [show group3 (natToDigits n) ++ [' ', 'K', 'č'] =
        (group3 (natToDigits n) ++ [' ']) ++ ['K', 'č'] by simp]
    rw [removePair_append_not_mem 'K' 'č' _ _ hK]
    rw [show removePair 'K' 'č' ['K', 'č'] = [] from rfl, List.append_nil]
  have hD : ∀ x ∈ natToDigits n, (decide (x ≠ ',')) = true := by
    intro x hx
    obtain ⟨d, hdlt, rfl⟩ := mem_natToDigits n x hx
    exact decide_eq_true (digitChar_props d hdlt).2.2.1
  have h2 : pyRemoveComma ((group3 (natToDigits n) ++ [' ']).asString) =
      (natToDigits n ++ [' ']).asString := by
    unfold pyRemoveComma removeChar
    rw [show ((group3 (natToDigits n) ++ [' ']).asString).toList =
        group3 (natToDigits n) ++ [' '] from rfl]
    rw [List.filter_append]
    rw [group3_filter _ (by decide)]
    rw [List.filter_eq_self.mpr hD]
    rw [show List.filter (fun x => decide (x ≠ ',')) [' '] = [' ']
        from by decide]
  have hws : ∀ c ∈ natToDigits n, c.isWhitespace = false := by
    intro c hc
    obtain ⟨d, hdlt, rfl⟩ := mem_natToDigits n c hc
    exact (digitChar_props d hdlt).2.2.2.2.2.2.1
  have h3 : pyStrip ((natToDigits n ++ [' ']).asString) =
      (natToDigits n).asString := by
    unfold pyStrip
    rw [show ((natToDigits n ++ [' ']).asString).toList =
        natToDigits n ++ [' '] from rfl]
    rw [stripList_append_space _ (natToDigits_ne_nil n) hws]
  have hnan : (natToDigits n).asString ≠ "nan" := by
    intro he
    have h4 : natToDigits n = ['n', 'a', 'n'] := congrArg String.toList he
    have hn : 'n' ∈ natToDigits n := by rw [h4]; simp
    obtain ⟨d, hdlt, hdc⟩ := mem_natToDigits n 'n' hn
    exact (digitChar_props d hdlt).2.2.2.2.2.2.2 hdc.symm
  simp only [coerceStr, h1, h2, h3]
  rw [if_neg hnan, parseFloat_digits n]

/-- **C3**: the aggregator's monetary coercion strips the `Kč` suffix,
thousands separators and surrounding whitespace, round-tripping every
canonically formatted amount (`formatCzk n`, e.g. `"1,000 Kč" ↦ 1000.0`);
`get_transactions` turns a missing or empty `VALUE` into `"0"`, which coerces
to zero; a `NaN` cell contributes zero to the aggregate sum; and the spec's
scenario table sums to `1000.0` under the `CATEGORY`/`MONTH` criteria. -/
theorem currency_coercion_roundtrip :
    (∀ n : Nat, coerceStr (formatCzk n) = .ok (some (n : ℚ))) ∧
    cleanTransactionValue "" = "0" ∧
    cleanTransactionValue "   " = "0" ∧
    coerceStr (cleanTransactionValue "") = .ok (some 0) ∧
    coerceCell Cell.na = .ok none ∧
    (∀ qe : QueryEval, sum_values_by_criteria qe ⟨["VALUE"], [[Cell.na]]⟩
      "VALUE" none [] = .ok 0) ∧
    (∀ qe : QueryEval, sum_values_by_criteria qe salaryDf "VALUE" none
      [("CATEGORY", CritVal.list ["Salary"]), ("MONTH", CritVal.str "January")]
      = .ok 1000) :=
  ⟨coerce_formatCzk, by decide, by decide, by decide, by decide,
    fun _ => rfl, fun _ => rfl⟩

end Budget
